import Mathlib

/-!
Verification development for the InterviewGen interview-practice application.

The definitions below are a shallow embedding of the repository's
prompt/schema contract layer and session state machine:

* `src/types.ts`           — the data model (`ChatMessage`, `InterviewConfig`,
                             `ResumeAnalysis`, `EvaluationResult`).
* `src/App.tsx`            — the session state machine (`handleStart`,
                             `handleSendMessage`, `handleEvaluate`,
                             `handleExport`) embedded as an event-driven step
                             function over `AppState`.  Each React `useState`
                             setter becomes a field update; each `await` on a
                             gateway call becomes a suspension point: the
                             synchronous prefix of a handler runs at its click
                             event and the continuation runs when the matching
                             pending call resolves.  Gateway calls issued by a
                             step are logged in the returned `List GatewayCall`.
* `src/unnamed/part_001`   — the question-generation prompt builder.
* `src/unnamed/part_002`   — the model-gateway service (`analyzeResume`,
                             `getNextInterviewerMessage`, `evaluateAnswer`):
                             response post-processing and JSON parse step.
-/

namespace InterviewGen

/-! ## Data model (`src/types.ts`) -/

inductive Difficulty
  | beginner | intermediate | advanced
  deriving DecidableEq

def Difficulty.str : Difficulty → String
  | .beginner => "beginner"
  | .intermediate => "intermediate"
  | .advanced => "advanced"

inductive Category
  | technical | behavioral | scenario | hrFit
  deriving DecidableEq

inductive Duration
  | m15 | m30 | m60
  deriving DecidableEq

inductive InterviewerStyle
  | faang | startup | serviceBased
  deriving DecidableEq

def InterviewerStyle.str : InterviewerStyle → String
  | .faang => "faang"
  | .startup => "startup"
  | .serviceBased => "service-based"

/-- `ChatMessage.role`: `'interviewer' | 'user'`. -/
inductive Role
  | interviewer | user
  deriving DecidableEq

/-- `role.toUpperCase()` as used by `handleExport`. -/
def Role.upper : Role → String
  | .interviewer => "INTERVIEWER"
  | .user => "USER"

structure ChatMessage where
  role : Role
  text : String
  deriving DecidableEq

structure SkillMap where
  dsa : Int
  systemDesign : Int
  communication : Int
  deriving DecidableEq

structure ResumeAnalysis where
  missingSkills : List String
  followUpQuestions : List String
  skillMap : SkillMap
  deriving DecidableEq

structure InterviewConfig where
  difficulty : Difficulty
  category : Category
  duration : Duration
  style : InterviewerStyle
  deriving DecidableEq

structure EvaluationResult where
  score : Int
  feedback : String
  improvement_tips : List String
  model_answer_outline : String
  deriving DecidableEq

/-- The `resumeFile` state: `{ data, mimeType, name }`. -/
structure ResumeFile where
  data : String
  mimeType : String
  name : String
  deriving DecidableEq

/-- The argument of `analyzeResume`: `{ text?, file? }` as built by
`handleStart` (exactly one alternative is populated). -/
inductive ResumeInput
  | text (t : String)
  | file (data mimeType : String)
  deriving DecidableEq

inductive View
  | landing | dashboard
  deriving DecidableEq

/-! ## Evaluation history

`evaluationHistory : Record<number, EvaluationResult>` is embedded as an
association list from turn index to result; `{...prev, [k]: v}` replaces any
previous binding of `k` and `evaluationHistory[idx]` is `lookupEval`. -/

abbrev EvalHistory := List (Nat × EvaluationResult)

def lookupEval (h : EvalHistory) (i : Nat) : Option EvaluationResult :=
  match h with
  | [] => none
  | (k, v) :: rest => if k = i then some v else lookupEval rest i

/-- Drop any binding of key `k`. -/
def eraseKey (k : Nat) : EvalHistory → EvalHistory
  | [] => []
  | kv :: rest => if kv.1 = k then eraseKey k rest else kv :: eraseKey k rest

/-- `{...prev, [k]: v}`: `k` now maps to `v` and all other keys are
unchanged.  (The JS spread keeps an overwritten key at its original position;
we append the binding instead — lookups and key counts agree.) -/
def insertEval (h : EvalHistory) (k : Nat) (v : EvaluationResult) : EvalHistory :=
  eraseKey k h ++ [(k, v)]

/-! ## `findLastIndex` and backward `find`

`messages.findLastIndex(p)` returns -1 when no element matches; we embed it
as an `Option Nat`.  `[...messages].reverse().find(p)` is `reverseFind`. -/

def findLastIdx (p : α → Bool) : List α → Option Nat
  | [] => none
  | a :: l =>
    match findLastIdx p l with
    | some i => some (i + 1)
    | none => if p a then some 0 else none

def reverseFind (p : α → Bool) (l : List α) : Option α :=
  l.reverse.find? p

/-! ## Application state (`src/App.tsx` `useState` hooks) -/

/-- A gateway call still awaiting its response, together with the values the
suspended handler closure captured. -/
inductive PendingCall
  | analyze (resume : ResumeInput) (targetRole : String)
      (config : InterviewConfig) (role resumeText : String)
  | firstMsg
  | reply
  | eval (lastInterviewerMsgIdx : Nat)
  deriving DecidableEq

/-- A request issued to the model gateway (`src/unnamed/part_002` operations),
with the arguments the state machine passed. -/
inductive GatewayCall
  | analyzeResume (resume : ResumeInput) (targetRole : String)
  | nextInterviewerMessage (config : InterviewConfig)
      (history : List ChatMessage) (role resume : String)
  | evaluateAnswer (question answer role : String)
  deriving DecidableEq

structure AppState where
  view : View
  loading : Bool
  error : Option String
  role : String
  resumeText : String
  resumeFile : Option ResumeFile
  analysis : Option ResumeAnalysis
  config : InterviewConfig
  messages : List ChatMessage
  userInput : String
  isTyping : Bool
  evaluation : Option EvaluationResult
  showModelAnswer : Bool
  evaluationHistory : EvalHistory
  pending : List PendingCall
  deriving DecidableEq

/-- The initial `useState` values of `App`. -/
def initState : AppState where
  view := .landing
  loading := false
  error := none
  role := "Senior Frontend Developer"
  resumeText := ""
  resumeFile := none
  analysis := none
  config := ⟨.intermediate, .technical, .m30, .faang⟩
  messages := []
  userInput := ""
  isTyping := false
  evaluation := none
  showModelAnswer := false
  evaluationHistory := []
  pending := []

/-! ## Handler segments (`src/App.tsx` lines 52–119)

Each handler is cut at its `await`s: the part before the first `await` runs
synchronously at the triggering event, the rest when the pending call
resolves (successfully or with a `GatewayFailure`, whose `err.message` we
inject as a `String`). -/

/-- `handleStart` up to `await analyzeResume(...)` (lines 52–61). -/
def startSeg0 (s : AppState) : AppState × List GatewayCall :=
  if s.role = "" ∨ (s.resumeText = "" ∧ s.resumeFile = none) then
    ({ s with error := some "Please provide a role and a resume to continue." }, [])
  else
    let resumeInput :=
      match s.resumeFile with
      | some f => ResumeInput.file f.data f.mimeType
      | none => ResumeInput.text s.resumeText
    ({ s with
        loading := true,
        error := none,
        pending := s.pending ++ [.analyze resumeInput s.role s.config s.role s.resumeText] },
     [.analyzeResume resumeInput s.role])

/-- `handleStart` from `setAnalysis(analysisData)` up to
`await getNextInterviewerMessage(...)` (lines 62–71). -/
def startAnalyzeOk (config : InterviewConfig) (role resumeText : String)
    (a : ResumeAnalysis) (s : AppState) : AppState × List GatewayCall :=
  ({ s with
      analysis := some a,
      view := .dashboard,
      evaluationHistory := [],
      messages := [],
      isTyping := true,
      pending := s.pending ++ [.firstMsg] },
   [.nextInterviewerMessage config [] role
      (if resumeText = "" then "File provided" else resumeText)])

/-- `handleStart`'s `catch`/`finally` (lines 73–78): the rejection message is
`err.message || "Failed to initialize interview."`. -/
def startCatchFinally (msg : String) (s : AppState) : AppState :=
  { s with
      error := some (if msg = "" then "Failed to initialize interview." else msg),
      loading := false,
      isTyping := false }

/-- `handleStart` after the first interviewer message arrives, plus the
`finally` (lines 72, 75–78). -/
def startFirstMsgOk (m : String) (s : AppState) : AppState :=
  { s with
      messages := [⟨.interviewer, m⟩],
      loading := false,
      isTyping := false }

/-- `!userInput.trim()`: the trimmed input is empty exactly when every
character of the input is whitespace. -/
def blankInput (t : String) : Bool :=
  t.data.all (fun c => c.isWhitespace)

/-- `handleSendMessage` up to `await getNextInterviewerMessage(...)`
(lines 81–92). -/
def sendSeg0 (s : AppState) : AppState × List GatewayCall :=
  if blankInput s.userInput = true ∨ s.isTyping then (s, [])
  else
    let currentMessages := s.messages ++ [⟨.user, s.userInput⟩]
    ({ s with
        messages := currentMessages,
        userInput := "",
        isTyping := true,
        evaluation := none,
        showModelAnswer := false,
        pending := s.pending ++ [.reply] },
     [.nextInterviewerMessage s.config currentMessages s.role
        (if s.resumeText = "" then "File provided" else s.resumeText)])

/-- `handleSendMessage` after the reply arrives: `setMessages(prev => [...prev,
{role:'interviewer', text:reply}])`, then `finally` (lines 93, 96–98). -/
def sendReplyOk (reply : String) (s : AppState) : AppState :=
  { s with
      messages := s.messages ++ [⟨.interviewer, reply⟩],
      isTyping := false }

/-- `handleSendMessage`'s `catch` (logs only) and `finally` (lines 94–98). -/
def sendReplyErr (s : AppState) : AppState :=
  { s with isTyping := false }

/-- `handleEvaluate` up to `await evaluateAnswer(...)` (lines 101–110). -/
def evalSeg0 (s : AppState) : AppState × List GatewayCall :=
  let lastUserMsg := reverseFind (fun m => m.role = .user) s.messages
  let lastInterviewerMsgIdx := findLastIdx (fun m => m.role = .interviewer) s.messages
  match lastUserMsg, lastInterviewerMsgIdx with
  | some u, some i =>
    ({ s with
        loading := true,
        pending := s.pending ++ [.eval i] },
     [.evaluateAnswer (s.messages.getD i ⟨.user, ""⟩).text u.text s.role])
  | _, _ => (s, [])

/-- `handleEvaluate` after the evaluation arrives, plus `finally`
(lines 111–118). -/
def evalOk (lastInterviewerMsgIdx : Nat) (d : EvaluationResult) (s : AppState) : AppState :=
  { s with
      evaluation := some d,
      evaluationHistory := insertEval s.evaluationHistory (lastInterviewerMsgIdx + 1) d,
      loading := false }

/-- `handleEvaluate`'s `catch` (logs only) and `finally` (lines 114–117). -/
def evalErr (s : AppState) : AppState :=
  { s with loading := false }

/-! ## Resolving pending gateway calls

A resolve step consumes the first pending call of the matching kind and runs
the suspended continuation with the injected outcome.  A failed promise
carries its `err.message`; a fulfilled conversational call carries
`response.text` (possibly absent), to which the service applies its fallback
(`getNextInterviewerMessage`, `src/unnamed/part_002` line 80). -/

/-- `response.text || "I apologize, could you repeat that?"` — the
conversational operation returns the raw text verbatim unless it is absent or
empty (`src/unnamed/part_002` lines 59–81). -/
def getNextInterviewerMessageResult (responseText : Option String) : String :=
  match responseText with
  | none => "I apologize, could you repeat that?"
  | some t => if t = "" then "I apologize, could you repeat that?" else t

def isAnalyzePending : PendingCall → Bool
  | .analyze _ _ _ _ _ => true
  | _ => false

def isFirstMsgPending : PendingCall → Bool
  | .firstMsg => true
  | _ => false

def isReplyPending : PendingCall → Bool
  | .reply => true
  | _ => false

def isEvalPending : PendingCall → Bool
  | .eval _ => true
  | _ => false

/-- Remove the first pending call satisfying `p`, returning it and the rest. -/
def takePending (p : PendingCall → Bool) : List PendingCall → Option (PendingCall × List PendingCall)
  | [] => none
  | c :: rest =>
    if p c then some (c, rest)
    else match takePending p rest with
      | some (c', rest') => some (c', c :: rest')
      | none => none

def resolveAnalyze (r : Except String ResumeAnalysis) (s : AppState) :
    AppState × List GatewayCall :=
  match takePending isAnalyzePending s.pending with
  | some (.analyze _ _ config role resumeText, rest) =>
    let s' := { s with pending := rest }
    (match r with
     | .ok a => startAnalyzeOk config role resumeText a s'
     | .error msg => (startCatchFinally msg s', []))
  | _ => (s, [])

def resolveFirstMsg (r : Except String (Option String)) (s : AppState) :
    AppState × List GatewayCall :=
  match takePending isFirstMsgPending s.pending with
  | some (_, rest) =>
    let s' := { s with pending := rest }
    (match r with
     | .ok t => (startFirstMsgOk (getNextInterviewerMessageResult t) s', [])
     | .error msg => (startCatchFinally msg s', []))
  | none => (s, [])

def resolveReply (r : Except String (Option String)) (s : AppState) :
    AppState × List GatewayCall :=
  match takePending isReplyPending s.pending with
  | some (_, rest) =>
    let s' := { s with pending := rest }
    (match r with
     | .ok t => (sendReplyOk (getNextInterviewerMessageResult t) s', [])
     | .error _ => (sendReplyErr s', []))
  | none => (s, [])

def resolveEval (r : Except String EvaluationResult) (s : AppState) :
    AppState × List GatewayCall :=
  match takePending isEvalPending s.pending with
  | some (.eval i, rest) =>
    let s' := { s with pending := rest }
    (match r with
     | .ok d => (evalOk i d s', [])
     | .error _ => (evalErr s', []))
  | _ => (s, [])

/-! ## The event-driven machine

One event per user intent (with its UI enablement condition) and one per
promise resolution.  `step` returns the successor state and the gateway calls
the step issued. -/

inductive Event
  | setRole (r : String)
  | setResumeText (t : String)
  | setResumeFile (f : Option ResumeFile)
  | setUserInput (t : String)
  | setConfig (c : InterviewConfig)
  | startClick
  | resetClick
  | sendClick
  | evalClick
  | analyzeResolve (r : Except String ResumeAnalysis)
  | firstMsgResolve (r : Except String (Option String))
  | replyResolve (r : Except String (Option String))
  | evalResolve (r : Except String EvaluationResult)

/-- One step of the application.  Click events fire only when the triggering
control is rendered and enabled: the landing inputs and the Get Started button
(`disabled={loading}`) exist on the landing view; the chat input, Reset
Session button and Evaluate button (`disabled={loading || messages.length <
2}`) exist on the dashboard.  The Reset Session button runs `setMessages([])`
and then `handleStart()` (`src/App.tsx` line 344). -/
def step (s : AppState) : Event → AppState × List GatewayCall
  | .setRole r => (if s.view = .landing then { s with role := r } else s, [])
  | .setResumeText t => (if s.view = .landing then { s with resumeText := t } else s, [])
  | .setResumeFile f => (if s.view = .landing then { s with resumeFile := f } else s, [])
  | .setUserInput t => (if s.view = .dashboard then { s with userInput := t } else s, [])
  | .setConfig c => (if s.view = .dashboard then { s with config := c } else s, [])
  | .startClick =>
    if s.view = .landing ∧ s.loading = false then startSeg0 s else (s, [])
  | .resetClick =>
    if s.view = .dashboard then startSeg0 { s with messages := [] } else (s, [])
  | .sendClick => if s.view = .dashboard then sendSeg0 s else (s, [])
  | .evalClick =>
    if s.view = .dashboard ∧ ¬(s.loading = true ∨ s.messages.length < 2) then
      evalSeg0 s
    else (s, [])
  | .analyzeResolve r => resolveAnalyze r s
  | .firstMsgResolve r => resolveFirstMsg r s
  | .replyResolve r => resolveReply r s
  | .evalResolve r => resolveEval r s

def run (evs : List Event) : AppState :=
  evs.foldl (fun s e => (step s e).1) initState

def Reachable (s : AppState) : Prop :=
  ∃ evs : List Event, run evs = s

/-- A session driven to: start succeeds, one send/reply exchange succeeds,
then Evaluate succeeds.  Transcript `[interviewer, user, interviewer]`. -/
def evaluatedSessionTrace : List Event :=
  [.setResumeText "cv", .startClick,
   .analyzeResolve (.ok ⟨["k8s"], ["q1"], ⟨50, 40, 60⟩⟩),
   .firstMsgResolve (.ok (some "Hi")),
   .setUserInput "ans", .sendClick,
   .replyResolve (.ok (some "Next")),
   .evalClick, .evalResolve (.ok ⟨7, "good", ["tip"], "outline"⟩)]

/-- A session driven to an active chat with one interviewer turn and the
candidate's next answer typed but not yet sent. -/
def activeChatTrace : List Event :=
  [.setResumeText "cv", .startClick,
   .analyzeResolve (.ok ⟨["k8s"], ["q1"], ⟨50, 40, 60⟩⟩),
   .firstMsgResolve (.ok (some "Hi")),
   .setUserInput "ans"]

/-- An active chat on which the dashboard Reset Session button was just
clicked: the restart's resume-analysis gateway call is outstanding. -/
def restartBusyTrace : List Event :=
  activeChatTrace ++ [.resetClick]

/-- A quiescent state whose transcript is one interviewer question followed
by one candidate answer. -/
def twoTurnState : AppState :=
  { initState with messages := [⟨.interviewer, "q"⟩, ⟨.user, "a"⟩] }

/-! ## Whole-operation views

When no other call is in flight (the spec's sequential regime), a handler is
its synchronous prefix followed immediately by its continuation.  These
composites chain the segment functions and collect every gateway call
issued. -/

/-- `handleStart` run to completion: validation, then the analysis call
resolving with `ra`, then (on success) the first-message call resolving with
`rm`. -/
def handleStart (s : AppState) (ra : Except String ResumeAnalysis)
    (rm : Except String (Option String)) : AppState × List GatewayCall :=
  let (s1, c1) := startSeg0 s
  let (s2, c2) := resolveAnalyze ra s1
  let (s3, c3) := resolveFirstMsg rm s2
  (s3, c1 ++ c2 ++ c3)

/-- `handleSendMessage` run to completion: guard and candidate append, then
the reply call resolving with `rm`. -/
def handleSendMessage (s : AppState) (rm : Except String (Option String)) :
    AppState × List GatewayCall :=
  let (s1, c1) := sendSeg0 s
  let (s2, c2) := resolveReply rm s1
  (s2, c1 ++ c2)

/-- `handleEvaluate` run to completion: locate the turn pair, then the
evaluation call resolving with `r`. -/
def handleEvaluate (s : AppState) (r : Except String EvaluationResult) :
    AppState × List GatewayCall :=
  let (s1, c1) := evalSeg0 s
  let (s2, c2) := resolveEval r s1
  (s2, c1 ++ c2)

/-! ## Report export (`src/App.tsx` lines 121–160, `handleExport`)

The source builds the report by repeated `report += "…\n"`; we embed the
report as the list of its `\n`-terminated lines, in order (an empty element
for each blank line).  `new Date().toLocaleString()` is the `now` argument.
The Blob/anchor download plumbing is presentation and out of scope. -/

/-- The per-turn loop body: the role-prefixed turn line, then (when
`evaluationHistory[idx]` is present) the three-line evaluation block, then a
blank line; `idx` is the index of the head of `msgs`. -/
def transcriptGo (hist : EvalHistory) : Nat → List ChatMessage → List String
  | _, [] => []
  | idx, m :: rest =>
    (m.role.upper ++ ": " ++ m.text) ::
      ((match lookupEval hist idx with
        | some evalItem =>
          ["[EVALUATION] Score: " ++ toString evalItem.score ++ "/10",
           "[FEEDBACK] " ++ evalItem.feedback,
           "[TIPS] " ++ String.intercalate " | " evalItem.improvement_tips]
        | none => []) ++
       [""] ++ transcriptGo hist (idx + 1) rest)

/-- `handleExport`: `none` when the transcript is empty (the early return);
otherwise the report's lines. -/
def handleExport (now : String) (s : AppState) : Option (List String) :=
  if s.messages.length = 0 then none
  else some
    (["AI INTERVIEW INTELLIGENCE - SESSION REPORT",
      "==========================================",
      "",
      "Role: " ++ s.role,
      "Difficulty: " ++ s.config.difficulty.str,
      "Interviewer Style: " ++ s.config.style.str,
      "Date: " ++ now,
      ""] ++
     (match s.analysis with
      | some analysis =>
        ["RESUME ANALYSIS",
         "---------------",
         "Missing Skills: " ++ String.intercalate ", " analysis.missingSkills,
         "Skill Scores: DSA(" ++ toString analysis.skillMap.dsa ++
           "%), System Design(" ++ toString analysis.skillMap.systemDesign ++
           "%), Communication(" ++ toString analysis.skillMap.communication ++ "%)",
         ""]
      | none => []) ++
     ["INTERVIEW TRANSCRIPT",
      "--------------------"] ++
     transcriptGo s.evaluationHistory 0 s.messages)

/-- A report line that prints a transcript turn: it starts with the role
prefix the export writes (`INTERVIEWER: ` or `USER: `). -/
def isRoleLine (l : String) : Bool :=
  List.isPrefixOf "INTERVIEWER: ".data l.data || List.isPrefixOf "USER: ".data l.data

/-- The first line of an evaluation block. -/
def isEvalLine (l : String) : Bool :=
  List.isPrefixOf "[EVALUATION] ".data l.data

/-! ## Generation prompt builder (`src/unnamed/part_001`, `generateQuestions`)

The per-category minimum mix and the instruction template, including the
`JSON.stringify(mix)` interpolation (object keys in insertion order). -/

structure QuestionMix where
  behavioral : Nat
  technical : Nat
  situational : Nat
  coding : Nat
  deriving DecidableEq

/-- `JSON.stringify` of the mix object. -/
def stringifyMix (mix : QuestionMix) : String :=
  "\x7b\"behavioral\":" ++ toString mix.behavioral ++
  ",\"technical\":" ++ toString mix.technical ++
  ",\"situational\":" ++ toString mix.situational ++
  ",\"coding\":" ++ toString mix.coding ++ "\x7d"

/-- The instruction template of `generateQuestions` (lines 42–59). -/
def generateQuestionsPrompt (resumeText targetRole : String)
    (numQuestions : Nat) (mix : QuestionMix) : String :=
  "\nResume: \"\"\"\n" ++ resumeText ++ "\n\"\"\"\n\n" ++
  "Role: \"" ++ targetRole ++ "\"\n" ++
  "Number_of_questions: " ++ toString numQuestions ++ "\n" ++
  "Preferred_mix: " ++ stringifyMix mix ++ "\n\n" ++
  "Act as an expert interview-question generator. Based on the resume and target role above, output role-specific, realistic questions that probe skills, experience, and potential gaps. \n\n" ++
  "Rules:\n" ++
  "1. Base questions on explicit resume content where possible (skills, metrics, projects).\n" ++
  "2. Tailor technical questions strictly to the job role.\n" ++
  "3. Mix: at least 2 behavioral, at least 2 role-technical, and others as situational/problem-based.\n" ++
  "4. Professional tone.\n" ++
  "5. Question length should be approx 1 sentence. Rationale 1 sentence. \n"

/-- Substring containment on strings, via their character lists. -/
def strContains (s pat : String) : Prop :=
  pat.data <:+: s.data

instance (s pat : String) : Decidable (strContains s pat) :=
  List.decidableInfix pat.data s.data

/-! ## Gateway parse step (`src/unnamed/part_002`)

`analyzeResume` and `evaluateAnswer` post-process the response with
`JSON.parse(response.text!) as T`.  A JSON value is embedded as `Json`;
`response.text` may be absent (`none`), and `JSON.parse` of an absent or
syntactically malformed body throws — embedded as `ResponseBody.malformed`.
The `as T` cast performs no inspection, so the parse step yields the parsed
value as-is. -/

inductive Json
  | null
  | bool (b : Bool)
  | num (n : Int)
  | str (s : String)
  | arr (elems : List Json)
  | obj (fields : List (String × Json))

/-- Field lookup on a JSON object (`undefined` ↦ `none`). -/
def Json.getField (j : Json) (k : String) : Option Json :=
  match j with
  | .obj fields => fields.lookup k
  | _ => none

/-- The body available to the parse step: `response.text` was absent or not
valid JSON (`JSON.parse` throws), or it parsed to a JSON value. -/
inductive ResponseBody
  | malformed
  | json (j : Json)

/-- The `required` list of `ANALYSIS_SCHEMA` (lines 8–24), attached to the
request; the response is not checked against it locally. -/
def ANALYSIS_SCHEMA_required : List String :=
  ["missingSkills", "followUpQuestions", "skillMap"]

/-- The `required` list of `EVALUATION_SCHEMA` (lines 26–35). -/
def EVALUATION_SCHEMA_required : List String :=
  ["score", "feedback", "improvement_tips", "model_answer_outline"]

/-- The parse step of `analyzeResume` (line 56):
`JSON.parse(response.text!) as ResumeAnalysis`. -/
def analyzeResumeParse : ResponseBody → Except String Json
  | .malformed => .error "Unexpected token in JSON"
  | .json j => .ok j

/-- The parse step of `evaluateAnswer` (line 99):
`JSON.parse(response.text!) as EvaluationResult`. -/
def evaluateAnswerParse : ResponseBody → Except String Json
  | .malformed => .error "Unexpected token in JSON"
  | .json j => .ok j

/-- Modelled from the spec: the validating decode the spec prescribes for the
analysis operation — "any field absent from a response must cause the parse
step to fail rather than silently default".  Used only as the comparison
point for the claim; the source has no such step. -/
def specAnalyzeDecode (b : ResponseBody) : Except String Json :=
  match b with
  | .malformed => .error "Unexpected token in JSON"
  | .json j =>
    if ANALYSIS_SCHEMA_required.all (fun k => (j.getField k).isSome) then .ok j
    else .error "missing required field"

/-! ## Helper lemmas -/

theorem lookupEval_append (h1 h2 : EvalHistory) (i : Nat) :
    lookupEval (h1 ++ h2) i =
      match lookupEval h1 i with
      | some v => some v
      | none => lookupEval h2 i := by
  induction h1 with
  | nil => simp [lookupEval]
  | cons kv rest ih =>
    by_cases hk : kv.1 = i <;> simp [lookupEval, hk, ih]

theorem lookupEval_eraseKey_ne (h : EvalHistory) (k i : Nat) (hne : i ≠ k) :
    lookupEval (eraseKey k h) i = lookupEval h i := by
  induction h with
  | nil => simp [eraseKey]
  | cons kv rest ih =>
    have hki : ¬ k = i := fun hh => hne hh.symm
    have hik : ¬ i = k := hne
    by_cases hk : kv.1 = k
    · simp [eraseKey, hk, lookupEval, hki, ih]
    · by_cases hi : kv.1 = i <;> simp [eraseKey, hk, lookupEval, hi, hik, ih]

theorem lookupEval_eraseKey_self (h : EvalHistory) (k : Nat) :
    lookupEval (eraseKey k h) k = none := by
  induction h with
  | nil => simp [eraseKey, lookupEval]
  | cons kv rest ih =>
    by_cases hk : kv.1 = k <;> simp [eraseKey, hk, lookupEval, ih]

theorem lookupEval_insertEval_self (h : EvalHistory) (k : Nat) (v : EvaluationResult) :
    lookupEval (insertEval h k v) k = some v := by
  simp [insertEval, lookupEval_append, lookupEval_eraseKey_self, lookupEval]

theorem lookupEval_insertEval_ne (h : EvalHistory) (k k' : Nat) (v : EvaluationResult)
    (hne : k' ≠ k) :
    lookupEval (insertEval h k v) k' = lookupEval h k' := by
  simp only [insertEval, lookupEval_append, lookupEval_eraseKey_ne h k k' hne]
  cases hl : lookupEval h k' with
  | some v' => rfl
  | none => simp [lookupEval, Ne.symm hne]

theorem findLastIdx_none_iff (p : α → Bool) (l : List α) :
    findLastIdx p l = none ↔ ∀ a ∈ l, p a = false := by
  induction l with
  | nil => simp [findLastIdx]
  | cons a l ih =>
    rw [findLastIdx]
    cases hl : findLastIdx p l with
    | some i =>
      refine iff_of_false (by simp) ?_
      intro hall
      have : findLastIdx p l = none :=
        ih.mpr fun b hb => hall b (List.mem_cons_of_mem a hb)
      rw [this] at hl; cases hl
    | none =>
      cases hp : p a with
      | true =>
        refine iff_of_false (by simp) ?_
        intro hall
        have := hall a (List.mem_cons_self a l)
        rw [hp] at this; cases this
      | false =>
        refine iff_of_true (by simp) ?_
        intro b hb
        rcases List.mem_cons.mp hb with rfl | hb
        · exact hp
        · exact ih.mp hl b hb

theorem findLastIdx_some_spec (p : α → Bool) (l : List α) (i : Nat) (d : α)
    (h : findLastIdx p l = some i) :
    i < l.length ∧ p (l.getD i d) = true ∧
      ∀ j, i < j → j < l.length → p (l.getD j d) = false := by
  induction l generalizing i with
  | nil => simp [findLastIdx] at h
  | cons a l ih =>
    cases hl : findLastIdx p l with
    | some i' =>
      rw [findLastIdx, hl] at h
      obtain rfl : i' + 1 = i := by simpa using h
      obtain ⟨h1, h2, h3⟩ := ih i' hl
      refine ⟨by simpa using h1, by simpa [List.getD_cons_succ] using h2, ?_⟩
      intro j hj1 hj2
      obtain ⟨j', rfl⟩ : ∃ j', j = j' + 1 := ⟨j - 1, by omega⟩
      have hj2' : j' < l.length := by simpa using hj2
      simpa [List.getD_cons_succ] using h3 j' (by omega) hj2'
    | none =>
      rw [findLastIdx, hl] at h
      cases hp : p a with
      | false => simp [hp] at h
      | true =>
        obtain rfl : 0 = i := by simpa [hp] using h
        refine ⟨by simp, by simpa [List.getD_cons_zero] using hp, ?_⟩
        intro j hj1 hj2
        obtain ⟨j', rfl⟩ : ∃ j', j = j' + 1 := ⟨j - 1, by omega⟩
        have hj2' : j' < l.length := by simpa using hj2
        have hall := (findLastIdx_none_iff p l).mp hl
        have hmem : l.getD j' d ∈ l := by
          rw [List.getD_eq_getElem l d hj2']
          exact List.getElem_mem hj2'
        simpa [List.getD_cons_succ] using hall _ hmem

theorem findLastIdx_isSome (p : α → Bool) (l : List α) (a : α)
    (ha : a ∈ l) (hp : p a = true) : (findLastIdx p l).isSome := by
  cases h : findLastIdx p l with
  | some i => rfl
  | none => exact absurd hp (by simp [(findLastIdx_none_iff p l).mp h a ha])

theorem reverseFind_eq_findLastIdx (p : α → Bool) (l : List α) (d : α) :
    reverseFind p l = (findLastIdx p l).map (fun i => l.getD i d) := by
  induction l with
  | nil => simp [reverseFind, findLastIdx]
  | cons a l ih =>
    rw [reverseFind, List.reverse_cons, List.find?_append]
    cases hl : findLastIdx p l with
    | some i =>
      have h1 := (findLastIdx_some_spec p l i d hl).1
      have : l.reverse.find? p = some (l.getD i d) := by
        have := ih
        rw [reverseFind, hl] at this
        simpa using this
      simp [this, findLastIdx, hl]
    | none =>
      have : l.reverse.find? p = none := by
        have := ih
        rw [reverseFind, hl] at this
        simpa using this
      cases hp : p a <;> simp [this, findLastIdx, hl, hp, List.find?]

theorem takePending_nil (p : PendingCall → Bool) : takePending p [] = none := rfl

theorem resolveAnalyze_no_pending (r : Except String ResumeAnalysis) (s : AppState)
    (hp : s.pending = []) : resolveAnalyze r s = (s, []) := by
  rw [resolveAnalyze, hp, takePending_nil]

theorem resolveFirstMsg_no_pending (r : Except String (Option String)) (s : AppState)
    (hp : s.pending = []) : resolveFirstMsg r s = (s, []) := by
  rw [resolveFirstMsg, hp, takePending_nil]

theorem resolveReply_no_pending (r : Except String (Option String)) (s : AppState)
    (hp : s.pending = []) : resolveReply r s = (s, []) := by
  rw [resolveReply, hp, takePending_nil]

theorem resolveEval_no_pending (r : Except String EvaluationResult) (s : AppState)
    (hp : s.pending = []) : resolveEval r s = (s, []) := by
  rw [resolveEval, hp, takePending_nil]

/-! ## Claims -/

/-- C6: for every input state in which the role is empty, or both the resume
text is empty and no resume file is present, `start()` fails with the
caller-visible validation message and performs zero gateway calls, leaving
the transcript, analysis, evaluation history and view unchanged. -/
theorem start_missing_inputs_validation_error (s : AppState)
    (ra : Except String ResumeAnalysis) (rm : Except String (Option String))
    (hp : s.pending = [])
    (h : s.role = "" ∨ (s.resumeText = "" ∧ s.resumeFile = none)) :
    (handleStart s ra rm).2 = [] ∧
    (handleStart s ra rm).1.messages = s.messages ∧
    (handleStart s ra rm).1.analysis = s.analysis ∧
    (handleStart s ra rm).1.evaluationHistory = s.evaluationHistory ∧
    (handleStart s ra rm).1.view = s.view ∧
    ∃ msg, (handleStart s ra rm).1.error = some msg ∧ msg ≠ "" := by
  have hs : startSeg0 s =
      ({ s with error := some "Please provide a role and a resume to continue." }, []) := by
    rw [startSeg0, if_pos h]
  have h1 : resolveAnalyze ra
      { s with error := some "Please provide a role and a resume to continue." } =
      ({ s with error := some "Please provide a role and a resume to continue." }, []) :=
    resolveAnalyze_no_pending ra _ hp
  have h2 : resolveFirstMsg rm
      { s with error := some "Please provide a role and a resume to continue." } =
      ({ s with error := some "Please provide a role and a resume to continue." }, []) :=
    resolveFirstMsg_no_pending rm _ hp
  simp only [handleStart, hs, h1, h2]
  exact ⟨by simp, trivial, trivial, trivial, trivial, _, rfl, by decide⟩

/-- C6 witness: the initial state has the default role but empty resume text
and no file, so `start()` is rejected locally. -/
theorem start_missing_inputs_validation_error_witness :
    (initState.pending = [] ∧
      (initState.role = "" ∨ (initState.resumeText = "" ∧ initState.resumeFile = none))) ∧
    ((handleStart initState (.error "") (.error "")).2 = [] ∧
      (handleStart initState (.error "") (.error "")).1.messages = initState.messages ∧
      (handleStart initState (.error "") (.error "")).1.analysis = initState.analysis ∧
      (handleStart initState (.error "") (.error "")).1.evaluationHistory =
        initState.evaluationHistory ∧
      (handleStart initState (.error "") (.error "")).1.view = initState.view ∧
      ∃ msg, (handleStart initState (.error "") (.error "")).1.error = some msg ∧ msg ≠ "") :=
  ⟨⟨rfl, Or.inr ⟨rfl, rfl⟩⟩,
    start_missing_inputs_validation_error initState (.error "") (.error "")
      rfl (Or.inr ⟨rfl, rfl⟩)⟩

/-- C7: the conversational operation returns the response text verbatim when
it is non-empty and substitutes the fixed fallback string when the response
is empty or absent; it always returns a reply (total function), never
failing the turn on an empty response. -/
theorem next_interviewer_message_fallback (t : Option String) :
    (∀ x : String, t = some x → x ≠ "" → getNextInterviewerMessageResult t = x) ∧
    ((t = none ∨ t = some "") →
      getNextInterviewerMessageResult t = "I apologize, could you repeat that?") := by
  constructor
  · rintro x rfl hx
    simp [getNextInterviewerMessageResult, hx]
  · rintro (rfl | rfl) <;> simp [getNextInterviewerMessageResult]

/-- C7 witness: a non-empty reply is passed through verbatim; an empty or
absent reply becomes the fallback string. -/
theorem next_interviewer_message_fallback_witness :
    getNextInterviewerMessageResult (some "Hello") = "Hello" ∧
    getNextInterviewerMessageResult (some "") = "I apologize, could you repeat that?" ∧
    getNextInterviewerMessageResult none = "I apologize, could you repeat that?" :=
  ⟨(next_interviewer_message_fallback (some "Hello")).1 "Hello" rfl (by decide),
   (next_interviewer_message_fallback (some "")).2 (Or.inr rfl),
   (next_interviewer_message_fallback none).2 (Or.inl rfl)⟩

/-- C10: sending while the input is empty or whitespace-only is a complete
no-op — no candidate turn is appended, no gateway call is issued and the
whole session state is unchanged. -/
theorem send_blank_input_noop (s : AppState) (rm : Except String (Option String))
    (hp : s.pending = []) (h : blankInput s.userInput = true) :
    handleSendMessage s rm = (s, []) := by
  have hs : sendSeg0 s = (s, []) := by
    rw [sendSeg0, if_pos (Or.inl h)]
  simp [handleSendMessage, hs, resolveReply_no_pending rm s hp]

/-- C10 witness: whitespace-only input is ignored. -/
theorem send_blank_input_noop_witness :
    blankInput ({ initState with userInput := "  \t " } : AppState).userInput = true ∧
    handleSendMessage { initState with userInput := "  \t " } (.ok (some "r")) =
      ({ initState with userInput := "  \t " }, []) :=
  ⟨by decide, send_blank_input_noop _ (.ok (some "r")) rfl (by decide)⟩

/-- C5 counterexample: a syntactically valid JSON response missing every
required field of the target shape is not rejected by the parse step of
`analyzeResume` or `evaluateAnswer`: `JSON.parse(...) as T` returns it
unchecked, while the decode the spec prescribes would fail it. -/
theorem parse_step_accepts_missing_fields :
    analyzeResumeParse (.json (.obj [])) = .ok (.obj []) ∧
    (Json.obj []).getField "missingSkills" = none ∧
    "missingSkills" ∈ ANALYSIS_SCHEMA_required ∧
    evaluateAnswerParse (.json (.obj [])) = .ok (.obj []) ∧
    (Json.obj []).getField "score" = none ∧
    "score" ∈ EVALUATION_SCHEMA_required ∧
    specAnalyzeDecode (.json (.obj [])) = .error "missing required field" := by
  refine ⟨rfl, rfl, ?_, rfl, rfl, ?_, rfl⟩
  · simp [ANALYSIS_SCHEMA_required]
  · simp [EVALUATION_SCHEMA_required]

/-- C5 amended: the parse step of the schema-backed operations fails exactly
when the response body is absent or not syntactically valid JSON; a valid
JSON body is returned as parsed, with no local check of the schema's
required fields (required-ness lives only in the request schema). -/
theorem parse_step_fails_only_on_malformed (b : ResponseBody) :
    ((∃ e, analyzeResumeParse b = .error e) ↔ b = .malformed) ∧
    ((∃ e, evaluateAnswerParse b = .error e) ↔ b = .malformed) ∧
    (∀ j, b = .json j → analyzeResumeParse b = .ok j ∧ evaluateAnswerParse b = .ok j) := by
  refine ⟨?_, ?_, ?_⟩
  · cases b with
    | malformed => exact iff_of_true ⟨_, rfl⟩ rfl
    | json j =>
      refine iff_of_false ?_ (by intro hh; cases hh)
      rintro ⟨e, he⟩
      simp [analyzeResumeParse] at he
  · cases b with
    | malformed => exact iff_of_true ⟨_, rfl⟩ rfl
    | json j =>
      refine iff_of_false ?_ (by intro hh; cases hh)
      rintro ⟨e, he⟩
      simp [evaluateAnswerParse] at he
  · rintro j rfl
    exact ⟨rfl, rfl⟩

/-- C5 amended witness: a malformed body fails both parse steps; a JSON
body (here `null`, with every required field absent) passes both. -/
theorem parse_step_fails_only_on_malformed_witness :
    (∃ e, analyzeResumeParse .malformed = .error e) ∧
    (∃ e, evaluateAnswerParse .malformed = .error e) ∧
    analyzeResumeParse (.json Json.null) = .ok Json.null ∧
    evaluateAnswerParse (.json Json.null) = .ok Json.null :=
  ⟨(parse_step_fails_only_on_malformed .malformed).1.mpr rfl,
   (parse_step_fails_only_on_malformed .malformed).2.1.mpr rfl,
   ((parse_step_fails_only_on_malformed (.json Json.null)).2.2 Json.null rfl).1,
   ((parse_step_fails_only_on_malformed (.json Json.null)).2.2 Json.null rfl).2⟩

/-- C9 counterexample: with the restart's resume-analysis call still
outstanding (the machine is busy: `loading` is set), a send is not ignored —
it mutates the transcript and issues a second gateway request, so two model
requests are then outstanding at once. -/
theorem send_while_start_outstanding_not_ignored :
    Reachable (run restartBusyTrace) ∧
    (run restartBusyTrace).loading = true ∧
    (run restartBusyTrace).pending.any isAnalyzePending = true ∧
    (step (run restartBusyTrace) .sendClick).2 ≠ [] ∧
    (step (run restartBusyTrace) .sendClick).1.messages ≠
      (run restartBusyTrace).messages := by
  refine ⟨⟨restartBusyTrace, rfl⟩, ?_, ?_, ?_, ?_⟩ <;> decide

/-- C9 amended: only the reply-await flag `isTyping` makes `send` a silent
no-op; while `isTyping` is set (a send's reply or the start flow's first
message is outstanding) a second send changes nothing and issues no gateway
call.  The analysis phase of start/restart sets only `loading`, which `send`
does not consult, so the at-most-one-outstanding-request invariant does not
hold in general. -/
theorem send_while_typing_ignored (s : AppState) (h : s.isTyping = true) :
    sendSeg0 s = (s, []) ∧ step s .sendClick = (s, []) := by
  have hs : sendSeg0 s = (s, []) := by
    rw [sendSeg0, if_pos (Or.inr (by simp [h]))]
  refine ⟨hs, ?_⟩
  rw [step]
  split
  · exact hs
  · rfl

/-- C9 amended witness: a send issued while a reply is pending is dropped. -/
theorem send_while_typing_ignored_witness :
    ({ initState with isTyping := true } : AppState).isTyping = true ∧
    sendSeg0 { initState with isTyping := true } =
      ({ initState with isTyping := true }, []) :=
  ⟨rfl, (send_while_typing_ignored _ rfl).1⟩

/-- C1: when the transcript holds a candidate turn and an interviewer turn,
`evaluate()` locates the most recent of each by independent backward scans
(indices `k` and `i` below, not necessarily adjacent), issues exactly the
evaluation call on that pair, and stores the one result keyed at `i + 1`,
leaving every other key and the transcript unchanged; when either turn is
absent it is a complete no-op with no gateway call. -/
theorem evaluate_most_recent_pair (s : AppState) (d : EvaluationResult)
    (hp : s.pending = []) :
    ((∃ m ∈ s.messages, m.role = .user) → (∃ m ∈ s.messages, m.role = .interviewer) →
      ∃ i k : Nat,
        (i < s.messages.length ∧
          (s.messages.getD i ⟨.user, ""⟩).role = .interviewer ∧
          ∀ j, i < j → j < s.messages.length →
            (s.messages.getD j ⟨.user, ""⟩).role ≠ .interviewer) ∧
        (k < s.messages.length ∧
          (s.messages.getD k ⟨.user, ""⟩).role = .user ∧
          ∀ j, k < j → j < s.messages.length →
            (s.messages.getD j ⟨.user, ""⟩).role ≠ .user) ∧
        (handleEvaluate s (.ok d)).2 =
          [.evaluateAnswer (s.messages.getD i ⟨.user, ""⟩).text
            (s.messages.getD k ⟨.user, ""⟩).text s.role] ∧
        lookupEval (handleEvaluate s (.ok d)).1.evaluationHistory (i + 1) = some d ∧
        (∀ k', k' ≠ i + 1 →
          lookupEval (handleEvaluate s (.ok d)).1.evaluationHistory k' =
            lookupEval s.evaluationHistory k') ∧
        (handleEvaluate s (.ok d)).1.messages = s.messages) ∧
    (((∀ m ∈ s.messages, m.role ≠ .user) ∨ (∀ m ∈ s.messages, m.role ≠ .interviewer)) →
      handleEvaluate s (.ok d) = (s, [])) := by
  constructor
  · rintro ⟨mu, hmu, hmur⟩ ⟨mi, hmi, hmir⟩
    have hu : ((findLastIdx (fun m => m.role = Role.user) s.messages)).isSome :=
      findLastIdx_isSome _ _ mu hmu (by simp [hmur])
    have hi : ((findLastIdx (fun m => m.role = Role.interviewer) s.messages)).isSome :=
      findLastIdx_isSome _ _ mi hmi (by simp [hmir])
    rcases hku : findLastIdx (fun m => m.role = Role.user) s.messages with _ | k
    · rw [hku] at hu; cases hu
    rcases hki : findLastIdx (fun m => m.role = Role.interviewer) s.messages with _ | i
    · rw [hki] at hi; cases hi
    have hrf : reverseFind (fun m => m.role = Role.user) s.messages =
        some (s.messages.getD k ⟨.user, ""⟩) := by
      rw [reverseFind_eq_findLastIdx _ _ ⟨.user, ""⟩, hku]; rfl
    obtain ⟨hk1, hk2, hk3⟩ := findLastIdx_some_spec _ s.messages k ⟨.user, ""⟩ hku
    obtain ⟨hi1, hi2, hi3⟩ := findLastIdx_some_spec _ s.messages i ⟨.user, ""⟩ hki
    have hseg : evalSeg0 s =
        ({ s with loading := true, pending := s.pending ++ [.eval i] },
         [.evaluateAnswer (s.messages.getD i ⟨.user, ""⟩).text
            (s.messages.getD k ⟨.user, ""⟩).text s.role]) := by
      rw [evalSeg0]
      simp only [hrf, hki]
    have hres : resolveEval (.ok d)
        ({ s with loading := true, pending := s.pending ++ [.eval i] }) =
        (evalOk i d { s with loading := true, pending := [] }, []) := by
      rw [resolveEval, hp]
      rfl
    refine ⟨i, k, ⟨hi1, by simpa using hi2, fun j h1 h2 => by simpa using hi3 j h1 h2⟩,
      ⟨hk1, by simpa using hk2, fun j h1 h2 => by simpa using hk3 j h1 h2⟩, ?_, ?_, ?_, ?_⟩
    · simp [handleEvaluate, hseg, hres]
    · simp [handleEvaluate, hseg, hres, evalOk, lookupEval_insertEval_self]
    · intro k' hk'
      simp [handleEvaluate, hseg, hres, evalOk, lookupEval_insertEval_ne _ _ _ _ hk']
    · simp [handleEvaluate, hseg, hres, evalOk]
  · intro hno
    have hseg : evalSeg0 s = (s, []) := by
      rcases hno with hno | hno
      · have hrf : reverseFind (fun m => m.role = Role.user) s.messages = none := by
          rw [reverseFind_eq_findLastIdx _ _ ⟨.user, ""⟩,
            (findLastIdx_none_iff _ _).mpr (fun a ha => by simp [hno a ha])]
          rfl
        rw [evalSeg0]
        simp only [hrf]
      · have hfl : findLastIdx (fun m => m.role = Role.interviewer) s.messages = none :=
          (findLastIdx_none_iff _ _).mpr (fun a ha => by simp [hno a ha])
        rw [evalSeg0]
        simp only [hfl]
        rcases hre : reverseFind (fun m => m.role = Role.user) s.messages with _ | u <;>
          simp only [hre]
    simp [handleEvaluate, hseg, resolveEval_no_pending _ s hp]

/-- C1 witness: in the transcript `[interviewer "q", user "a"]` evaluate
calls the gateway on the pair and stores the result at key 1; in a
transcript with no candidate turn it is a no-op. -/
theorem evaluate_most_recent_pair_witness :
    (({ initState with messages := [⟨.interviewer, "q"⟩, ⟨.user, "a"⟩] } : AppState).pending
        = [] ∧
      (∃ m ∈ ({ initState with
          messages := [⟨.interviewer, "q"⟩, ⟨.user, "a"⟩] } : AppState).messages,
        m.role = Role.user) ∧
      (∃ m ∈ ({ initState with
          messages := [⟨.interviewer, "q"⟩, ⟨.user, "a"⟩] } : AppState).messages,
        m.role = Role.interviewer)) ∧
    (∃ i k : Nat,
      (i < 2 ∧
        (([⟨.interviewer, "q"⟩, ⟨.user, "a"⟩] : List ChatMessage).getD i
            ⟨.user, ""⟩).role = .interviewer ∧
        ∀ j, i < j → j < 2 →
          (([⟨.interviewer, "q"⟩, ⟨.user, "a"⟩] : List ChatMessage).getD j
              ⟨.user, ""⟩).role ≠ .interviewer) ∧
      (k < 2 ∧
        (([⟨.interviewer, "q"⟩, ⟨.user, "a"⟩] : List ChatMessage).getD k
            ⟨.user, ""⟩).role = .user ∧
        ∀ j, k < j → j < 2 →
          (([⟨.interviewer, "q"⟩, ⟨.user, "a"⟩] : List ChatMessage).getD j
              ⟨.user, ""⟩).role ≠ .user) ∧
      (handleEvaluate { initState with messages := [⟨.interviewer, "q"⟩, ⟨.user, "a"⟩] }
          (.ok ⟨9, "f", [], "o"⟩)).2 =
        [.evaluateAnswer
          (([⟨.interviewer, "q"⟩, ⟨.user, "a"⟩] : List ChatMessage).getD i
            ⟨.user, ""⟩).text
          (([⟨.interviewer, "q"⟩, ⟨.user, "a"⟩] : List ChatMessage).getD k
            ⟨.user, ""⟩).text
          ({ initState with
              messages := [⟨.interviewer, "q"⟩, ⟨.user, "a"⟩] } : AppState).role] ∧
      lookupEval (handleEvaluate
          { initState with messages := [⟨.interviewer, "q"⟩, ⟨.user, "a"⟩] }
          (.ok ⟨9, "f", [], "o"⟩)).1.evaluationHistory (i + 1) = some ⟨9, "f", [], "o"⟩ ∧
      (∀ k', k' ≠ i + 1 →
        lookupEval (handleEvaluate
            { initState with messages := [⟨.interviewer, "q"⟩, ⟨.user, "a"⟩] }
            (.ok ⟨9, "f", [], "o"⟩)).1.evaluationHistory k' =
          lookupEval ({ initState with
              messages := [⟨.interviewer, "q"⟩, ⟨.user, "a"⟩] } : AppState).evaluationHistory
            k') ∧
      (handleEvaluate { initState with messages := [⟨.interviewer, "q"⟩, ⟨.user, "a"⟩] }
          (.ok ⟨9, "f", [], "o"⟩)).1.messages =
        [⟨.interviewer, "q"⟩, ⟨.user, "a"⟩]) := by
  refine ⟨⟨rfl, ⟨⟨.user, "a"⟩, by simp, rfl⟩, ⟨⟨.interviewer, "q"⟩, by simp, rfl⟩⟩, ?_⟩
  exact (evaluate_most_recent_pair
      { initState with messages := [⟨.interviewer, "q"⟩, ⟨.user, "a"⟩] }
      ⟨9, "f", [], "o"⟩ rfl).1
    ⟨⟨.user, "a"⟩, by simp, rfl⟩ ⟨⟨.interviewer, "q"⟩, by simp, rfl⟩

/-- Closed form of a successful `evaluate()` given the indices the two
backward scans produce. -/
theorem handleEvaluate_ok_eq (s : AppState) (d : EvaluationResult) (k i : Nat)
    (hp : s.pending = [])
    (hku : findLastIdx (fun m => m.role = Role.user) s.messages = some k)
    (hki : findLastIdx (fun m => m.role = Role.interviewer) s.messages = some i) :
    handleEvaluate s (.ok d) =
      ({ s with
          loading := false,
          evaluation := some d,
          evaluationHistory := insertEval s.evaluationHistory (i + 1) d,
          pending := [] },
       [.evaluateAnswer (s.messages.getD i ⟨.user, ""⟩).text
          (s.messages.getD k ⟨.user, ""⟩).text s.role]) := by
  have hrf : reverseFind (fun m => m.role = Role.user) s.messages =
      some (s.messages.getD k ⟨.user, ""⟩) := by
    rw [reverseFind_eq_findLastIdx _ _ ⟨.user, ""⟩, hku]; rfl
  have hseg : evalSeg0 s =
      ({ s with loading := true, pending := s.pending ++ [.eval i] },
       [.evaluateAnswer (s.messages.getD i ⟨.user, ""⟩).text
          (s.messages.getD k ⟨.user, ""⟩).text s.role]) := by
    rw [evalSeg0]
    simp only [hrf, hki]
  simp only [handleEvaluate, hseg, hp]
  simp [resolveEval, takePending, isEvalPending, evalOk]

/-- C2 counterexample: in the reachable session whose transcript is
`[interviewer, user, interviewer]` and where Evaluate succeeded, the single
stored evaluation is keyed at 3, one past the end of the 3-turn transcript —
the key references no candidate turn (no turn at all). -/
theorem evaluation_key_not_candidate_index :
    Reachable (run evaluatedSessionTrace) ∧
    lookupEval (run evaluatedSessionTrace).evaluationHistory 3 =
      some ⟨7, "good", ["tip"], "outline"⟩ ∧
    (run evaluatedSessionTrace).messages.length = 3 ∧
    ¬ 3 < (run evaluatedSessionTrace).messages.length := by
  refine ⟨⟨evaluatedSessionTrace, rfl⟩, ?_, ?_, ?_⟩ <;> decide

/-- C2 amended: the key `evaluate()` stores is `i + 1` for `i` the index of
the most recent interviewer turn, so at storage time it is at most the
transcript length, and whenever it is a valid index the turn there has the
candidate role; but it may equal the transcript length (one past the end,
where the next candidate turn would land), so the stored keys do not, in
general, reference existing candidate turn indices.  All other keys are
unchanged. -/
theorem evaluation_key_bound_at_store_time (s : AppState) (d : EvaluationResult)
    (hp : s.pending = [])
    (hu : ∃ m ∈ s.messages, m.role = .user)
    (hi : ∃ m ∈ s.messages, m.role = .interviewer) :
    ∃ i : Nat,
      findLastIdx (fun m => m.role = Role.interviewer) s.messages = some i ∧
      i + 1 ≤ s.messages.length ∧
      (i + 1 < s.messages.length →
        (s.messages.getD (i + 1) ⟨.user, ""⟩).role = .user) ∧
      lookupEval (handleEvaluate s (.ok d)).1.evaluationHistory (i + 1) = some d ∧
      (∀ k', k' ≠ i + 1 →
        lookupEval (handleEvaluate s (.ok d)).1.evaluationHistory k' =
          lookupEval s.evaluationHistory k') := by
  obtain ⟨mu, hmu, hmur⟩ := hu
  obtain ⟨mi, hmi, hmir⟩ := hi
  have hu' : ((findLastIdx (fun m => m.role = Role.user) s.messages)).isSome :=
    findLastIdx_isSome _ _ mu hmu (by simp [hmur])
  have hi' : ((findLastIdx (fun m => m.role = Role.interviewer) s.messages)).isSome :=
    findLastIdx_isSome _ _ mi hmi (by simp [hmir])
  rcases hku : findLastIdx (fun m => m.role = Role.user) s.messages with _ | k
  · rw [hku] at hu'; cases hu'
  rcases hki : findLastIdx (fun m => m.role = Role.interviewer) s.messages with _ | i
  · rw [hki] at hi'; cases hi'
  obtain ⟨hi1, _, hi3⟩ := findLastIdx_some_spec _ s.messages i ⟨.user, ""⟩ hki
  have heq := handleEvaluate_ok_eq s d k i hp hku hki
  refine ⟨i, hki, by omega, ?_, ?_, ?_⟩
  · intro hlt
    have := hi3 (i + 1) (by omega) hlt
    rcases hrole : (s.messages.getD (i + 1) ⟨.user, ""⟩).role with _ | _
    · rw [hrole] at this; simp at this
    · rfl
  · rw [heq]
    exact lookupEval_insertEval_self _ _ _
  · intro k' hk'
    rw [heq]
    exact lookupEval_insertEval_ne _ _ _ _ hk'

/-- C2 amended witness: in the two-turn transcript `[interviewer, user]` the
stored key is 1, which is within range and names the candidate turn. -/
theorem evaluation_key_bound_at_store_time_witness :
    (twoTurnState.pending = [] ∧
      (∃ m ∈ twoTurnState.messages, m.role = Role.user) ∧
      (∃ m ∈ twoTurnState.messages, m.role = Role.interviewer)) ∧
    (∃ i : Nat,
      findLastIdx (fun m => m.role = Role.interviewer) twoTurnState.messages = some i ∧
      i + 1 ≤ twoTurnState.messages.length ∧
      (i + 1 < twoTurnState.messages.length →
        (twoTurnState.messages.getD (i + 1) ⟨.user, ""⟩).role = .user) ∧
      lookupEval (handleEvaluate twoTurnState (.ok ⟨5, "f", [], "o"⟩)).1.evaluationHistory
        (i + 1) = some ⟨5, "f", [], "o"⟩ ∧
      (∀ k', k' ≠ i + 1 →
        lookupEval (handleEvaluate twoTurnState
            (.ok ⟨5, "f", [], "o"⟩)).1.evaluationHistory k' =
          lookupEval twoTurnState.evaluationHistory k')) :=
  ⟨⟨rfl, ⟨⟨.user, "a"⟩, by simp [twoTurnState, initState], rfl⟩,
      ⟨⟨.interviewer, "q"⟩, by simp [twoTurnState, initState], rfl⟩⟩,
    evaluation_key_bound_at_store_time twoTurnState ⟨5, "f", [], "o"⟩ rfl
      ⟨⟨.user, "a"⟩, by simp [twoTurnState, initState], rfl⟩
      ⟨⟨.interviewer, "q"⟩, by simp [twoTurnState, initState], rfl⟩⟩

/-- C4 counterexample: a `GatewayFailure` during `send()` does not leave the
transcript unchanged — the candidate turn was appended before the gateway
call and stays after the failure. -/
theorem send_failure_transcript_changed :
    Reachable (run activeChatTrace) ∧
    (handleSendMessage (run activeChatTrace) (.error "network down")).1.messages ≠
      (run activeChatTrace).messages := by
  exact ⟨⟨activeChatTrace, rfl⟩, by decide⟩

/-- C4 amended: a `GatewayFailure` in `start()`'s analysis call surfaces a
non-empty error message and leaves the view (hence `Intake` stays `Intake`),
transcript, analysis and evaluation history unchanged; a `GatewayFailure`
during `send()` leaves the evaluation history, analysis, view and error
unchanged (no failure message is surfaced) but leaves the transcript
extended by the just-appended candidate turn — the reply alone is missing. -/
theorem gateway_failure_state_effects (s : AppState) (hp : s.pending = []) :
    (∀ (msg : String) (rm : Except String (Option String)),
      ¬(s.role = "" ∨ (s.resumeText = "" ∧ s.resumeFile = none)) →
      (handleStart s (.error msg) rm).1.view = s.view ∧
      (handleStart s (.error msg) rm).1.messages = s.messages ∧
      (handleStart s (.error msg) rm).1.analysis = s.analysis ∧
      (handleStart s (.error msg) rm).1.evaluationHistory = s.evaluationHistory ∧
      (∃ e, (handleStart s (.error msg) rm).1.error = some e ∧ e ≠ "")) ∧
    (∀ msg : String, blankInput s.userInput = false → s.isTyping = false →
      (handleSendMessage s (.error msg)).1.messages =
        s.messages ++ [⟨.user, s.userInput⟩] ∧
      (handleSendMessage s (.error msg)).1.evaluationHistory = s.evaluationHistory ∧
      (handleSendMessage s (.error msg)).1.analysis = s.analysis ∧
      (handleSendMessage s (.error msg)).1.view = s.view ∧
      (handleSendMessage s (.error msg)).1.error = s.error) := by
  constructor
  · intro msg rm h
    simp only [handleStart, startSeg0, if_neg h, hp]
    simp only [List.nil_append]
    simp [resolveAnalyze, takePending, isAnalyzePending, startCatchFinally,
      resolveFirstMsg, takePending_nil]
    by_cases hm : msg = "" <;> simp [hm]
  · intro msg hbi hty
    have hg : ¬(blankInput s.userInput = true ∨ s.isTyping = true) := by
      simp [hbi, hty]
    simp only [handleSendMessage, sendSeg0, if_neg hg, hp]
    simp only [List.nil_append]
    simp [resolveReply, takePending, isReplyPending, sendReplyErr]

/-- C4 amended witness: with a role and resume text present, a failing
analysis call leaves the landing view and surfaces an error, and a failing
reply call leaves the transcript with the candidate turn appended. -/
theorem gateway_failure_state_effects_witness :
    (({ initState with resumeText := "cv", userInput := "hi" } : AppState).pending = [] ∧
      ¬(({ initState with resumeText := "cv", userInput := "hi" } : AppState).role = "" ∧
        True) ∧
      blankInput ({ initState with
        resumeText := "cv", userInput := "hi" } : AppState).userInput = false) ∧
    ((handleStart { initState with resumeText := "cv", userInput := "hi" }
        (.error "boom") (.ok (some "x"))).1.view =
      ({ initState with resumeText := "cv", userInput := "hi" } : AppState).view ∧
      (∃ e, (handleStart { initState with resumeText := "cv", userInput := "hi" }
          (.error "boom") (.ok (some "x"))).1.error = some e ∧ e ≠ "")) ∧
    (handleSendMessage { initState with resumeText := "cv", userInput := "hi" }
        (.error "boom")).1.messages =
      ({ initState with resumeText := "cv", userInput := "hi" } : AppState).messages ++
        [⟨.user, "hi"⟩] := by
  have h1 := (gateway_failure_state_effects
    { initState with resumeText := "cv", userInput := "hi" } rfl).1
    "boom" (.ok (some "x")) (by decide)
  have h2 := (gateway_failure_state_effects
    { initState with resumeText := "cv", userInput := "hi" } rfl).2
    "boom" (by decide) rfl
  exact ⟨⟨rfl, by decide, by decide⟩, ⟨h1.1, h1.2.2.2.2⟩, h2.1⟩

theorem strContains_self (s : String) : strContains s s :=
  ⟨[], [], by simp⟩

theorem strContains_mono_right (s t pat : String) (h : strContains s pat) :
    strContains (s ++ t) pat := by
  obtain ⟨u, v, huv⟩ := h
  exact ⟨u, v ++ t.data, by rw [String.data_append, ← huv]; simp⟩

theorem strContains_mono_left (s t pat : String) (h : strContains t pat) :
    strContains (s ++ t) pat := by
  obtain ⟨u, v, huv⟩ := h
  exact ⟨s.data ++ u, v, by rw [String.data_append, ← huv]; simp⟩

theorem strContains_pair (x lit n : String) : strContains ((x ++ lit) ++ n) (lit ++ n) := by
  refine ⟨x.data, [], ?_⟩
  simp [String.data_append]

/-- C8: for all inputs, the built generation instruction contains the
requested question count verbatim (as the `Number_of_questions` line) and
the four per-category minimums of the supplied mix (as the stringified
key/count pairs of the `Preferred_mix` line), all checkable by string
containment. -/
theorem generation_prompt_contains_count_and_mix (resumeText targetRole : String)
    (numQuestions : Nat) (mix : QuestionMix) :
    strContains (generateQuestionsPrompt resumeText targetRole numQuestions mix)
      ("Number_of_questions: " ++ toString numQuestions) ∧
    strContains (generateQuestionsPrompt resumeText targetRole numQuestions mix)
      ("\x7b\"behavioral\":" ++ toString mix.behavioral) ∧
    strContains (generateQuestionsPrompt resumeText targetRole numQuestions mix)
      (",\"technical\":" ++ toString mix.technical) ∧
    strContains (generateQuestionsPrompt resumeText targetRole numQuestions mix)
      (",\"situational\":" ++ toString mix.situational) ∧
    strContains (generateQuestionsPrompt resumeText targetRole numQuestions mix)
      (",\"coding\":" ++ toString mix.coding) := by
  refine ⟨?_, ?_, ?_, ?_, ?_⟩ <;> simp only [generateQuestionsPrompt, stringifyMix]
  · iterate 11 apply strContains_mono_right
    exact strContains_pair _ _ _
  · iterate 8 apply strContains_mono_right
    apply strContains_mono_left
    iterate 7 apply strContains_mono_right
    exact strContains_self _
  · iterate 8 apply strContains_mono_right
    apply strContains_mono_left
    iterate 5 apply strContains_mono_right
    exact strContains_pair _ _ _
  · iterate 8 apply strContains_mono_right
    apply strContains_mono_left
    iterate 3 apply strContains_mono_right
    exact strContains_pair _ _ _
  · iterate 8 apply strContains_mono_right
    apply strContains_mono_left
    iterate 1 apply strContains_mono_right
    exact strContains_pair _ _ _

theorem isPrefixOf_self_append (l x : List Char) : List.isPrefixOf l (l ++ x) = true := by
  induction l with
  | nil => simp [List.isPrefixOf]
  | cons a as ih => simp [List.isPrefixOf, ih]

theorem isPrefixOf_false_of_head_ne (p l : List Char) (a c : Char) (ps : List Char)
    (hp : p = a :: ps) (hl : l.head? = some c) (h : (a == c) = false) :
    List.isPrefixOf p l = false := by
  cases l with
  | nil => simp at hl
  | cons b bs =>
    obtain rfl : c = b := by simpa using hl.symm
    rw [hp]
    simp [List.isPrefixOf, h]

theorem head?_data_append (x y : String) (c : Char) (h : x.data.head? = some c) :
    (x ++ y).data.head? = some c := by
  rw [String.data_append]
  cases hx : x.data with
  | nil => rw [hx] at h; cases h
  | cons a as =>
    rw [hx] at h
    simpa using h

theorem isRoleLine_head_ne (l : String) (c : Char) (hl : l.data.head? = some c)
    (h1 : ('I' == c) = false) (h2 : ('U' == c) = false) : isRoleLine l = false := by
  rw [isRoleLine,
    isPrefixOf_false_of_head_ne _ _ 'I' c "NTERVIEWER: ".data rfl hl h1,
    isPrefixOf_false_of_head_ne _ _ 'U' c "SER: ".data rfl hl h2]
  rfl

theorem isEvalLine_head_ne (l : String) (c : Char) (hl : l.data.head? = some c)
    (h : ('[' == c) = false) : isEvalLine l = false := by
  rw [isEvalLine,
    isPrefixOf_false_of_head_ne _ _ '[' c "EVALUATION] ".data rfl hl h]

theorem isRoleLine_interviewer_style (x : String) :
    isRoleLine ("Interviewer Style: " ++ x) = false := by
  have hN : ('N' == 'n') = false := by decide
  have hU : ('U' == 'I') = false := by decide
  rw [isRoleLine, String.data_append,
    show "Interviewer Style: ".data = 'I' :: 'n' :: "terviewer Style: ".data from rfl,
    show "INTERVIEWER: ".data = 'I' :: 'N' :: "TERVIEWER: ".data from rfl,
    show "USER: ".data = 'U' :: "SER: ".data from rfl]
  simp [List.isPrefixOf, hN, hU]

theorem isEvalLine_feedback (x : String) :
    isEvalLine ("[FEEDBACK] " ++ x) = false := by
  have hE : ('E' == 'F') = false := by decide
  rw [isEvalLine, String.data_append,
    show "[EVALUATION] ".data = '[' :: 'E' :: "VALUATION] ".data from rfl,
    show "[FEEDBACK] ".data = '[' :: 'F' :: "EEDBACK] ".data from rfl]
  simp [List.isPrefixOf, hE]

theorem isEvalLine_tips (x : String) :
    isEvalLine ("[TIPS] " ++ x) = false := by
  have hE : ('E' == 'T') = false := by decide
  rw [isEvalLine, String.data_append,
    show "[EVALUATION] ".data = '[' :: 'E' :: "VALUATION] ".data from rfl,
    show "[TIPS] ".data = '[' :: 'T' :: "IPS] ".data from rfl]
  simp [List.isPrefixOf, hE]

theorem isEvalLine_score (x y : String) :
    isEvalLine (("[EVALUATION] Score: " ++ x) ++ y) = true := by
  rw [isEvalLine, String.data_append, String.data_append,
    show "[EVALUATION] Score: ".data = "[EVALUATION] ".data ++ "Score: ".data from rfl]
  rw [List.append_assoc, List.append_assoc]
  exact isPrefixOf_self_append _ _

theorem isRoleLine_turn (r : Role) (t : String) :
    isRoleLine ((r.upper ++ ": ") ++ t) = true := by
  cases r with
  | interviewer =>
    rw [isRoleLine, String.data_append, String.data_append,
      show "INTERVIEWER: ".data = "INTERVIEWER".data ++ ": ".data from rfl, Role.upper]
    rw [List.append_assoc]
    simp [isPrefixOf_self_append]
  | user =>
    rw [isRoleLine, String.data_append, String.data_append,
      show "USER: ".data = "USER".data ++ ": ".data from rfl, Role.upper]
    rw [List.append_assoc]
    simp [isPrefixOf_self_append]

theorem isEvalLine_turn (r : Role) (t : String) :
    isEvalLine ((r.upper ++ ": ") ++ t) = false := by
  cases r with
  | interviewer =>
    exact isEvalLine_head_ne _ 'I'
      (head?_data_append _ _ _ (head?_data_append _ _ _ rfl)) (by decide)
  | user =>
    exact isEvalLine_head_ne _ 'U'
      (head?_data_append _ _ _ (head?_data_append _ _ _ rfl)) (by decide)

theorem transcriptGo_countP_role (hist : EvalHistory) (msgs : List ChatMessage)
    (idx : Nat) :
    (transcriptGo hist idx msgs).countP isRoleLine = msgs.length := by
  induction msgs generalizing idx with
  | nil => simp [transcriptGo]
  | cons m rest ih =>
    rw [transcriptGo]
    have hturn := isRoleLine_turn m.role m.text
    have hblank : isRoleLine "" = false := by decide
    cases hb : lookupEval hist idx with
    | none =>
      simp [List.countP_cons, List.countP_append, hturn, hblank, ih (idx + 1)]
    | some e =>
      have h1 : isRoleLine ("[EVALUATION] Score: " ++ toString e.score ++ "/10") = false :=
        isRoleLine_head_ne _ '['
          (head?_data_append _ _ _ (head?_data_append _ _ _ rfl)) (by decide) (by decide)
      have h2 : isRoleLine ("[FEEDBACK] " ++ e.feedback) = false :=
        isRoleLine_head_ne _ '[' (head?_data_append _ _ _ rfl) (by decide) (by decide)
      have h3 : isRoleLine ("[TIPS] " ++ String.intercalate " | " e.improvement_tips)
          = false :=
        isRoleLine_head_ne _ '[' (head?_data_append _ _ _ rfl) (by decide) (by decide)
      simp [List.countP_cons, List.countP_append, hturn, hblank, h1, h2, h3, ih (idx + 1)]

theorem transcriptGo_countP_eval (hist : EvalHistory) (msgs : List ChatMessage)
    (idx : Nat) :
    (transcriptGo hist idx msgs).countP isEvalLine =
      (List.range' idx msgs.length).countP (fun i => (lookupEval hist i).isSome) := by
  induction msgs generalizing idx with
  | nil => simp [transcriptGo]
  | cons m rest ih =>
    rw [transcriptGo, List.length_cons, List.range'_succ]
    have hturn := isEvalLine_turn m.role m.text
    have hblank : isEvalLine "" = false := by decide
    cases hb : lookupEval hist idx with
    | none =>
      simp [List.countP_cons, List.countP_append, hturn, hblank, hb, ih (idx + 1)]
    | some e =>
      have h1 := isEvalLine_score (toString e.score) "/10"
      have h2 := isEvalLine_feedback e.feedback
      have h3 := isEvalLine_tips (String.intercalate " | " e.improvement_tips)
      simp [List.countP_cons, List.countP_append, hturn, hblank, hb, h1, h2, h3,
        ih (idx + 1)]

theorem lookupEval_eq_none_of_not_mem (h : EvalHistory) (i : Nat)
    (hm : i ∉ h.map Prod.fst) : lookupEval h i = none := by
  induction h with
  | nil => rfl
  | cons kv rest ih =>
    simp only [List.map_cons, List.mem_cons] at hm
    push_neg at hm
    rw [lookupEval, if_neg (fun hh => hm.1 hh.symm)]
    exact ih hm.2

theorem countP_point_or (l : List Nat) (k : Nat) (q : Nat → Bool) (hq : q k = false)
    (hl : l.Nodup) :
    l.countP (fun i => if k = i then true else q i) =
      l.countP q + (if k ∈ l then 1 else 0) := by
  induction l with
  | nil => simp
  | cons a as ih =>
    have hnd := List.nodup_cons.mp hl
    by_cases hka : k = a
    · subst hka
      have hqs : ∀ i ∈ as, ((if k = i then true else q i) = true ↔ q i = true) := by
        intro i hi
        have hki : ¬ k = i := by
          intro hh
          exact hnd.1 (hh ▸ hi)
        rw [if_neg hki]
      rw [List.countP_cons, List.countP_cons, List.countP_congr hqs, if_pos rfl,
        if_pos (List.mem_cons_self k as)]
      simp [hq]
    · rw [List.countP_cons, List.countP_cons, ih hnd.2, if_neg hka]
      by_cases h1 : k ∈ as <;> by_cases h2 : q a = true <;>
        simp [h1, h2, List.mem_cons, hka]

theorem countP_lookup_range (hist : EvalHistory) (N : Nat)
    (hnd : (hist.map Prod.fst).Nodup) :
    (List.range' 0 N).countP (fun i => (lookupEval hist i).isSome) =
      (hist.filter (fun kv => kv.1 < N)).length := by
  induction hist with
  | nil =>
    simp [lookupEval, List.countP_eq_zero]
  | cons kv rest ih =>
    have hnd' := List.nodup_cons.mp hnd
    have hknone : lookupEval rest kv.1 = none :=
      lookupEval_eq_none_of_not_mem rest kv.1 hnd'.1
    have hpred : ∀ i ∈ List.range' 0 N,
        ((lookupEval (kv :: rest) i).isSome = true ↔
          (if kv.1 = i then true else (lookupEval rest i).isSome) = true) := by
      intro i _
      rw [lookupEval]
      by_cases hh : kv.1 = i <;> simp [hh]
    rw [List.countP_congr hpred,
      countP_point_or _ _ _ (by simp [hknone]) (List.nodup_range' 0 N 1)]
    rw [ih hnd'.2]
    have hmem : (kv.1 ∈ List.range' 0 N) = (kv.1 < N) := by
      simp [List.mem_range']
    rw [List.filter_cons]
    by_cases hlt : kv.1 < N <;> simp [hlt, hmem]

theorem getElem?_append_add (X Y : List α) (p : Nat) :
    (X ++ Y)[X.length + p]? = Y[p]? := by
  rw [List.getElem?_append_right (by omega)]
  congr 1
  omega

theorem transcriptGo_adjacency (hist : EvalHistory) (msgs : List ChatMessage)
    (idx i : Nat) (e : EvaluationResult) (hlt : i < msgs.length)
    (hl : lookupEval hist (idx + i) = some e) :
    ∃ p, (transcriptGo hist idx msgs)[p]? =
        some ((msgs.getD i ⟨.user, ""⟩).role.upper ++ ": " ++
          (msgs.getD i ⟨.user, ""⟩).text) ∧
      (transcriptGo hist idx msgs)[p + 1]? =
        some ("[EVALUATION] Score: " ++ toString e.score ++ "/10") := by
  induction msgs generalizing idx i with
  | nil => simp at hlt
  | cons m rest ih =>
    cases i with
    | zero =>
      have hl0 : lookupEval hist idx = some e := by simpa using hl
      refine ⟨0, ?_, ?_⟩
      · rw [transcriptGo]
        simp
      · rw [transcriptGo, hl0]
        simp
    | succ i' =>
      have hl' : lookupEval hist ((idx + 1) + i') = some e := by
        rw [show idx + 1 + i' = idx + (i' + 1) by omega]
        exact hl
      obtain ⟨p, h1, h2⟩ := ih (idx + 1) i' (by simpa using hlt) hl'
      rw [transcriptGo]
      cases hb : lookupEval hist idx with
      | none =>
        refine ⟨p + 2, ?_, ?_⟩
        · simpa using h1
        · simpa using h2
      | some ev =>
        refine ⟨p + 5, ?_, ?_⟩
        · simpa using h1
        · simpa using h2

theorem adjacency_lift (A D : List α) (x y : α) (p : Nat)
    (h1 : D[p]? = some x) (h2 : D[p + 1]? = some y) :
    ∃ q, (A ++ D)[q]? = some x ∧ (A ++ D)[q + 1]? = some y := by
  refine ⟨A.length + p, ?_, ?_⟩
  · rw [getElem?_append_add]; exact h1
  · rw [show A.length + p + 1 = A.length + (p + 1) by omega, getElem?_append_add]
    exact h2

/-- C3 counterexample: a reachable session with 3 turns and 1 stored
evaluation whose export report contains zero evaluation blocks — the
evaluation is keyed one past the transcript's end, so the per-turn loop
never prints it. -/
theorem export_misses_out_of_range_evaluation :
    Reachable (run evaluatedSessionTrace) ∧
    (run evaluatedSessionTrace).evaluationHistory.length = 1 ∧
    (run evaluatedSessionTrace).messages.length = 3 ∧
    ∃ L, handleExport "1/1/2025, 10:00:00 AM" (run evaluatedSessionTrace) = some L ∧
      L.countP isEvalLine = 0 := by
  refine ⟨⟨evaluatedSessionTrace, rfl⟩, by decide, by decide, ⟨_, rfl, by decide⟩⟩

/-- C3 amended: exporting a session with `N` turns produces a report with
exactly `N` role-prefixed transcript lines and one evaluation block per
stored evaluation whose key is a valid transcript index (evaluations keyed
past the end of the transcript are omitted), each such block immediately
following the turn line of the turn its key references; when the transcript
is empty, export is a no-op producing no report. -/
theorem export_report_shape (now : String) (s : AppState)
    (hnd : (s.evaluationHistory.map Prod.fst).Nodup) :
    (s.messages = [] → handleExport now s = none) ∧
    (s.messages ≠ [] →
      ∃ L, handleExport now s = some L ∧
        L.countP isRoleLine = s.messages.length ∧
        L.countP isEvalLine =
          (s.evaluationHistory.filter (fun kv => kv.1 < s.messages.length)).length ∧
        (∀ i e, lookupEval s.evaluationHistory i = some e → i < s.messages.length →
          ∃ p, L[p]? = some ((s.messages.getD i ⟨.user, ""⟩).role.upper ++ ": " ++
              (s.messages.getD i ⟨.user, ""⟩).text) ∧
            L[p + 1]? = some ("[EVALUATION] Score: " ++ toString e.score ++ "/10"))) := by
  have f1 : isRoleLine ("Role: " ++ s.role) = false :=
    isRoleLine_head_ne _ 'R' (head?_data_append _ _ _ rfl) (by decide) (by decide)
  have f2 : isRoleLine ("Difficulty: " ++ s.config.difficulty.str) = false :=
    isRoleLine_head_ne _ 'D' (head?_data_append _ _ _ rfl) (by decide) (by decide)
  have f3 : isRoleLine ("Interviewer Style: " ++ s.config.style.str) = false :=
    isRoleLine_interviewer_style _
  have f4 : isRoleLine ("Date: " ++ now) = false :=
    isRoleLine_head_ne _ 'D' (head?_data_append _ _ _ rfl) (by decide) (by decide)
  have g1 : isEvalLine ("Role: " ++ s.role) = false :=
    isEvalLine_head_ne _ 'R' (head?_data_append _ _ _ rfl) (by decide)
  have g2 : isEvalLine ("Difficulty: " ++ s.config.difficulty.str) = false :=
    isEvalLine_head_ne _ 'D' (head?_data_append _ _ _ rfl) (by decide)
  have g3 : isEvalLine ("Interviewer Style: " ++ s.config.style.str) = false :=
    isEvalLine_head_ne _ 'I' (head?_data_append _ _ _ rfl) (by decide)
  have g4 : isEvalLine ("Date: " ++ now) = false :=
    isEvalLine_head_ne _ 'D' (head?_data_append _ _ _ rfl) (by decide)
  constructor
  · intro hm
    rw [handleExport, if_pos (by simp [hm])]
  · intro hm
    rw [handleExport, if_neg (by simpa using hm)]
    refine ⟨_, rfl, ?_, ?_, ?_⟩
    · simp only [List.countP_append, List.countP_cons, f1, f2, f3, f4,
        transcriptGo_countP_role]
      cases ha : s.analysis with
      | none => simp [isRoleLine]
      | some a =>
        have f5 : isRoleLine ("Missing Skills: " ++
            String.intercalate ", " a.missingSkills) = false :=
          isRoleLine_head_ne _ 'M' (head?_data_append _ _ _ rfl) (by decide) (by decide)
        have f6 : isRoleLine ("Skill Scores: DSA(" ++ toString a.skillMap.dsa ++
            "%), System Design(" ++ toString a.skillMap.systemDesign ++
            "%), Communication(" ++ toString a.skillMap.communication ++ "%)") = false := by
          apply isRoleLine_head_ne _ 'S' ?_ (by decide) (by decide)
          repeat apply head?_data_append
          rfl
        simp [List.countP_cons, f5, f6, isRoleLine]
    · simp only [List.countP_append, List.countP_cons, g1, g2, g3, g4,
        transcriptGo_countP_eval, countP_lookup_range s.evaluationHistory _ hnd]
      cases ha : s.analysis with
      | none => simp [isEvalLine]
      | some a =>
        have g5 : isEvalLine ("Missing Skills: " ++
            String.intercalate ", " a.missingSkills) = false :=
          isEvalLine_head_ne _ 'M' (head?_data_append _ _ _ rfl) (by decide)
        have g6 : isEvalLine ("Skill Scores: DSA(" ++ toString a.skillMap.dsa ++
            "%), System Design(" ++ toString a.skillMap.systemDesign ++
            "%), Communication(" ++ toString a.skillMap.communication ++ "%)") = false := by
          apply isEvalLine_head_ne _ 'S' ?_ (by decide)
          repeat apply head?_data_append
          rfl
        simp [List.countP_cons, g5, g6, isEvalLine]
    · intro i e hli hlt
      obtain ⟨p, hp1, hp2⟩ :=
        transcriptGo_adjacency s.evaluationHistory s.messages 0 i e hlt
          (by simpa using hli)
      exact adjacency_lift _ _ _ _ p hp1 hp2

/-- C3 amended witness: on the reachable evaluated session the report has
exactly 3 role-prefixed lines and one block per in-range-keyed evaluation
(here none, since the only key is out of range). -/
theorem export_report_shape_witness :
    (((run evaluatedSessionTrace).evaluationHistory.map Prod.fst).Nodup ∧
      (run evaluatedSessionTrace).messages ≠ []) ∧
    (∃ L, handleExport "1/1/2025, 10:00:00 AM" (run evaluatedSessionTrace) = some L ∧
      L.countP isRoleLine = (run evaluatedSessionTrace).messages.length ∧
      L.countP isEvalLine =
        ((run evaluatedSessionTrace).evaluationHistory.filter
          (fun kv => kv.1 < (run evaluatedSessionTrace).messages.length)).length ∧
      (∀ i e, lookupEval (run evaluatedSessionTrace).evaluationHistory i = some e →
        i < (run evaluatedSessionTrace).messages.length →
        ∃ p, L[p]? = some
            (((run evaluatedSessionTrace).messages.getD i ⟨.user, ""⟩).role.upper ++
              ": " ++ ((run evaluatedSessionTrace).messages.getD i ⟨.user, ""⟩).text) ∧
          L[p + 1]? =
            some ("[EVALUATION] Score: " ++ toString e.score ++ "/10"))) :=
  ⟨⟨by decide, by decide⟩,
    (export_report_shape "1/1/2025, 10:00:00 AM" (run evaluatedSessionTrace)
      (by decide)).2 (by decide)⟩

end InterviewGen
